import Mathlib

/-!
Verification development for the photo-voice repository.

The audio utilities, playback scheduler, transcription accumulator, tool-call
loop and disconnect path of `LiveClient` (src/unnamed/part_001), the
`editImage` request wrapper (src/unnamed/part_000 / src/services/geminiService.ts)
and the controller's edit-history handlers (src/App.tsx) are embedded as
executable Lean functions.  Float samples are modelled as rationals: every
float32 sample times 32767 or 32768 is exactly representable in float64, so
the JavaScript arithmetic on the modelled ranges is exact and the rational
model is faithful.
-/

namespace PhotoVoice

/-! ## Audio sample conversion (LiveClient.floatTo16BitPCM / pcm16ToFloat32) -/

/-- JS `Math.max(-1, Math.min(1, x))` on a (non-NaN) number. -/
def clamp (x : ℚ) : ℚ := max (-1) (min 1 x)

/-- ECMAScript ToIntegerOrInfinity on a finite number: truncation toward zero. -/
def jsTrunc (q : ℚ) : ℤ := if 0 ≤ q then ⌊q⌋ else ⌈q⌉

/-- ECMAScript ToInt16 of a truncated integer: reduce modulo 2^16 into
`[-32768, 32767]`. -/
def wrapInt16 (n : ℤ) : ℤ :=
  let m := n % 65536
  if 32768 ≤ m then m - 65536 else m

/-- Storing a JS number into an `Int16Array` slot (ToInt16). -/
def toInt16 (q : ℚ) : ℤ := wrapInt16 (jsTrunc q)

/-- One iteration of the loop in `LiveClient.floatTo16BitPCM`
(src/unnamed/part_001 lines 256-259):
`const s = Math.max(-1, Math.min(1, input[i])); output[i] = s < 0 ? s * 0x8000 : s * 0x7FFF;`. -/
def floatTo16BitPCMSample (x : ℚ) : ℤ :=
  let s := clamp x
  if s < 0 then toInt16 (s * 32768) else toInt16 (s * 32767)

/-- Function `LiveClient.floatTo16BitPCM` (src/unnamed/part_001 lines 254-261),
with the `Float32Array` input and `Int16Array` output viewed as lists. -/
def floatTo16BitPCM (input : List ℚ) : List ℤ := input.map floatTo16BitPCMSample

/-- One iteration of the loop in `LiveClient.pcm16ToFloat32`
(src/unnamed/part_001 line 267): `float32[i] = int16[i] / 32768.0;`.
An int16 divided by 32768 is exactly representable as a float32. -/
def pcm16ToFloat32Sample (n : ℤ) : ℚ := n / 32768

/-- Function `LiveClient.pcm16ToFloat32` (src/unnamed/part_001 lines 263-270), with the
`Int16Array` view of the byte buffer taken as the list of 16-bit samples. -/
def pcm16ToFloat32 (buffer : List ℤ) : List ℚ := buffer.map pcm16ToFloat32Sample

/-- The per-sample conversion as the spec words it (round-based); written from
the spec sentence, not from the source, to be compared against
`floatTo16BitPCMSample`. -/
def specRoundSample (x : ℚ) : ℤ :=
  let s := clamp x
  if 0 ≤ s then round (s * 32767) else round (s * 32768)

/-! ## Playback scheduling (LiveClient.playAudio) -/

/-- Duration in seconds of a playback buffer of `n` samples at the fixed
24 kHz output rate (`createBuffer(1, float32Data.length, 24000)`). -/
def chunkDuration (n : ℕ) : ℚ := n / 24000

/-- The scheduling tail of `LiveClient.playAudio` (src/unnamed/part_001
lines 219-225): given the cursor `nextStartTime`, the device clock
`currentTime` and the chunk's sample count, return the chunk's start time and
the updated cursor.
`if (this.nextStartTime < currentTime) { this.nextStartTime = currentTime; }
 source.start(this.nextStartTime); this.nextStartTime += buffer.duration;` -/
def playAudio (cursor currentTime : ℚ) (n : ℕ) : ℚ × ℚ :=
  let start := if cursor < currentTime then currentTime else cursor
  (start, start + chunkDuration n)

/-- Run `playAudio` over a sequence of chunks, each given as
(device clock at arrival, sample count); returns the list of scheduled start
times and the final cursor. -/
def runPlay : ℚ → List (ℚ × ℕ) → List ℚ × ℚ
  | c, [] => ([], c)
  | c, (ct, n) :: rest =>
      let p := playAudio c ct n
      let r := runPlay p.2 rest
      (p.1 :: r.1, r.2)

/-- The device clock stays behind the running cursor at every arrival. -/
def clockBehindB : ℚ → List (ℚ × ℕ) → Bool
  | _, [] => true
  | c, (ct, n) :: rest =>
      if ct ≤ c then clockBehindB (playAudio c ct n).2 rest else false

/-! ## Transcription accumulation (LiveClient onmessage, lines 101-115) -/

/-- Callback source tag: `'user' | 'model'`. -/
inductive TSource where
  | user : TSource
  | model : TSource
deriving DecidableEq

/-- One `onTranscription(text, source, isFinal)` invocation. -/
structure TranscriptEvent where
  text : String
  source : TSource
  isFinal : Bool
deriving DecidableEq

/-- The transcription-relevant fields of a `LiveServerMessage`'s
`serverContent`. -/
structure ServerMessage where
  inputTranscription : Option String
  outputTranscription : Option String
  turnComplete : Bool
deriving DecidableEq

/-- The two transcript accumulators of `LiveClient`
(`currentInputText`, `currentOutputText`). -/
structure TState where
  currentInputText : String
  currentOutputText : String
deriving DecidableEq

/-- The transcription branch of the `onmessage` handler (src/unnamed/part_001
lines 101-115): append each present fragment to its accumulator and emit a
non-final event with the accumulated text; on `turnComplete`, emit a final
event with the accumulated model text and reset both accumulators. -/
def handleServerContent (st : TState) (m : ServerMessage) : TState × List TranscriptEvent :=
  let p1 : TState × List TranscriptEvent :=
    match m.inputTranscription with
    | some t =>
        let acc := st.currentInputText ++ t
        ({ st with currentInputText := acc }, [⟨acc, TSource.user, false⟩])
    | none => (st, [])
  let p2 : TState × List TranscriptEvent :=
    match m.outputTranscription with
    | some t =>
        let acc := p1.1.currentOutputText ++ t
        ({ p1.1 with currentOutputText := acc }, p1.2 ++ [⟨acc, TSource.model, false⟩])
    | none => p1
  if m.turnComplete then
    (⟨"", ""⟩, p2.2 ++ [⟨p2.1.currentOutputText, TSource.model, true⟩])
  else
    p2

/-- Process a list of inbound messages in arrival order, collecting the
emitted `onTranscription` events. -/
def runMessages (st : TState) : List ServerMessage → TState × List TranscriptEvent
  | [] => (st, [])
  | m :: rest =>
      let p := handleServerContent st m
      let r := runMessages p.1 rest
      (r.1, p.2 ++ r.2)

/-- A message carrying only an input (user) transcription fragment. -/
def inputFragMsg (t : String) : ServerMessage := ⟨some t, none, false⟩

/-- A message carrying only an output (model) transcription fragment. -/
def outputFragMsg (t : String) : ServerMessage := ⟨none, some t, false⟩

/-- A message carrying only the turn-complete signal. -/
def turnCompleteMsg : ServerMessage := ⟨none, none, true⟩

/-- Expected event trace for a run of user fragments: each fragment emits the
accumulator-so-far extended by it, non-final, source user. -/
def userFragEvents (base : String) : List String → List TranscriptEvent
  | [] => []
  | t :: rest => ⟨base ++ t, TSource.user, false⟩ :: userFragEvents (base ++ t) rest

/-- Expected event trace for a run of model fragments: each fragment emits the
accumulator-so-far extended by it, non-final, source model. -/
def modelFragEvents (base : String) : List String → List TranscriptEvent
  | [] => []
  | t :: rest => ⟨base ++ t, TSource.model, false⟩ :: modelFragEvents (base ++ t) rest

/-- Concatenation of a list of fragments in order. -/
def concatAll : List String → String
  | [] => ""
  | t :: rest => t ++ concatAll rest

/-! ## Tool-call handling (LiveClient onmessage, lines 117-137) -/

/-- A JavaScript value as far as the tool-call code observes it: the handler's
resolved value flows into `result || "success"`, so only its truthiness and
identity matter. -/
inductive JSVal where
  | undef : JSVal
  | null : JSVal
  | bool : Bool → JSVal
  | num : ℚ → JSVal
  | str : String → JSVal
deriving DecidableEq

/-- JavaScript truthiness of a modelled value (NaN excluded by the model). -/
def truthy : JSVal → Bool
  | JSVal.undef => false
  | JSVal.null => false
  | JSVal.bool b => b
  | JSVal.num q => decide (q ≠ 0)
  | JSVal.str s => decide (s ≠ "")

/-- JS `result || "success"` (src/unnamed/part_001 line 128). -/
def resultOrSuccess (v : JSVal) : JSVal :=
  if truthy v then v else JSVal.str "success"

/-- One invocation of `message.toolCall.functionCalls`. -/
structure FunctionCall where
  id : String
  name : String
deriving DecidableEq

/-- One entry `{ id, name, response: { result } }` pushed onto `responses`. -/
structure ToolResponseEntry where
  id : String
  name : String
  result : JSVal
deriving DecidableEq

/-- The outbound message `session.sendToolResponse({ functionResponses })`. -/
structure ToolResponseMessage where
  functionResponses : List ToolResponseEntry
deriving DecidableEq

/-- The `for (const fc of message.toolCall.functionCalls)` loop
(src/unnamed/part_001 lines 120-131).  The configured handler is
`config.onToolCall` (absent when `none`); an awaited handler call that rejects
is modelled by `Except.error`, which aborts the loop exactly as the uncaught
exception aborts the `async` message handler. -/
def processToolCalls (handler : Option (FunctionCall → Except String JSVal)) :
    List FunctionCall → Except String (List ToolResponseEntry)
  | [] => Except.ok []
  | fc :: rest =>
      match handler with
      | none => processToolCalls none rest
      | some h =>
          match h fc with
          | Except.error e => Except.error e
          | Except.ok v =>
              match processToolCalls (some h) rest with
              | Except.error e => Except.error e
              | Except.ok entries =>
                  Except.ok ({ id := fc.id, name := fc.name,
                               result := resultOrSuccess v } :: entries)

/-- The whole tool-call branch: run the loop, then send the collected
responses in a single `sendToolResponse` message (src/unnamed/part_001
lines 133-136).  When the loop aborts with an uncaught handler exception, no
message is sent and the exception escapes the session's message handler. -/
def handleToolCall (handler : Option (FunctionCall → Except String JSVal))
    (fcs : List FunctionCall) : Except String ToolResponseMessage :=
  match processToolCalls handler fcs with
  | Except.error e => Except.error e
  | Except.ok entries => Except.ok ⟨entries⟩

/-! ## disconnect (LiveClient.disconnect, lines 228-251) -/

/-- A `MediaStreamTrack`: `stop()` is idempotent and never throws. -/
structure Track where
  stopped : Bool
deriving DecidableEq

/-- A `ScriptProcessorNode`: `disconnect()` never throws; `onaudioprocess`
can be nulled. -/
structure Processor where
  connected : Bool
  hasCallback : Bool
deriving DecidableEq

/-- A `MediaStreamAudioSourceNode`. -/
structure SourceNode where
  connected : Bool
deriving DecidableEq

/-- An `AudioContext`, reduced to its closed flag. -/
structure AudioCtx where
  closed : Bool
deriving DecidableEq

/-- Modelled from the Web Audio API (not repository code): `AudioContext.close()`
resolves and marks the context closed, but when called on an already-closed
context it rejects with `InvalidStateError`. -/
def AudioCtx.closeCtx (c : AudioCtx) : Except String AudioCtx :=
  if c.closed then Except.error "InvalidStateError" else Except.ok ⟨true⟩

/-- The fields of `LiveClient` that `disconnect` touches.  `sessionActive`
models `sessionPromise !== null`. -/
structure ClientState where
  stream : Option (List Track)
  processor : Option Processor
  inputSource : Option SourceNode
  inputAudioContext : Option AudioCtx
  outputAudioContext : Option AudioCtx
  sessionActive : Bool
  currentInputText : String
  currentOutputText : String
deriving DecidableEq

/-- The state of a freshly constructed `LiveClient`, before `connect` has run
(all resource fields null). -/
def freshClient : ClientState :=
  ⟨none, none, none, none, none, false, "", ""⟩

/-- Method `LiveClient.disconnect` (src/unnamed/part_001 lines 228-251), step by
step and in source order: stop every track of the stream, disconnect the
processor and null its callback, disconnect the input source, await closure of
both audio contexts, null the session reference, clear both accumulators.
None of the resource references themselves are nulled. -/
def disconnect (s : ClientState) : Except String ClientState :=
  let s1 := match s.stream with
    | some tracks => { s with stream := some (tracks.map (fun _ => ⟨true⟩)) }
    | none => s
  let s2 := match s1.processor with
    | some _ => { s1 with processor := some ⟨false, false⟩ }
    | none => s1
  let s3 := match s2.inputSource with
    | some _ => { s2 with inputSource := some ⟨false⟩ }
    | none => s2
  match (match s3.inputAudioContext with
         | some c =>
             match c.closeCtx with
             | Except.error e => Except.error e
             | Except.ok c' => Except.ok { s3 with inputAudioContext := some c' }
         | none => Except.ok s3) with
  | Except.error e => Except.error e
  | Except.ok s4 =>
      match (match s4.outputAudioContext with
             | some c =>
                 match c.closeCtx with
                 | Except.error e => Except.error e
                 | Except.ok c' => Except.ok { s4 with outputAudioContext := some c' }
             | none => Except.ok s4) with
      | Except.error e => Except.error e
      | Except.ok s5 =>
          Except.ok { s5 with sessionActive := false,
                              currentInputText := "", currentOutputText := "" }

/-! ## editImage (src/unnamed/part_000 lines 11-82; the variant in
src/services/geminiService.ts lines 11-78 is identical except that it takes no
`apiKey` parameter and performs no key check) -/

/-- One response part: `inlineData` holds the raw base64 payload
(`part.inlineData.data`) when present. -/
structure RespPart where
  inlineData : Option String
  text : Option String
deriving DecidableEq

/-- Field `candidate.content`. -/
structure RespContent where
  parts : Option (List RespPart)
deriving DecidableEq

/-- One response candidate. -/
structure Candidate where
  finishReason : Option String
  content : Option RespContent
deriving DecidableEq

/-- The `generateContent` response, as far as `editImage` reads it. -/
structure GenResponse where
  candidates : Option (List Candidate)
deriving DecidableEq

/-- JS truthiness of `candidate.finishReason` and the `!== 'STOP'` test:
`candidate.finishReason && candidate.finishReason !== 'STOP'`. -/
def finishReasonAbnormal (c : Candidate) : Bool :=
  match c.finishReason with
  | some r => decide (r ≠ "") && decide (r ≠ "STOP")
  | none => false

/-- Expression `candidate.content?.parts` with optional chaining. -/
def candParts (c : Candidate) : Option (List RespPart) :=
  match c.content with
  | some content => content.parts
  | none => none

/-- The part-scanning tail of `editImage` (src/unnamed/part_000 lines 64-77):
the `!parts.length` arm of the empty-parts check, then the
`for (const part of parts)` loop returning a PNG data URL from the first part
with `inlineData`, else the no-image error. -/
def handleParts (parts : List RespPart) : Except String String :=
  if parts = [] then
    Except.error "No content generated from Gemini (empty parts)."
  else
    match parts.find? (fun p => p.inlineData.isSome) with
    | some p => Except.ok ("data:image/png;base64," ++ p.inlineData.getD "")
    | none => Except.error "No image data found in response."

/-- The per-candidate logic of `editImage` (src/unnamed/part_000
lines 55-77): the refusal check
`if (candidate.finishReason && candidate.finishReason !== 'STOP') { if (!candidate.content?.parts?.length) throw ... }`,
then the `!parts` arm of `if (!parts || parts.length === 0)`, then the part
scan. -/
def handleCandidate (cand : Candidate) : Except String String :=
  if finishReasonAbnormal cand ∧ (candParts cand).getD [] = [] then
    Except.error ("Gemini refused to generate content. Reason: " ++
      (cand.finishReason.getD ""))
  else
    match candParts cand with
    | none => Except.error "No content generated from Gemini (empty parts)."
    | some parts => handleParts parts

/-- The response-handling body of `editImage` (src/unnamed/part_000
lines 14-77).  The network call is abstracted as the `resp` argument; every
`throw` is an `Except.error` carrying the thrown message (the surrounding
`try/catch` only logs and rethrows, so it does not change the result).
`env` models `process.env.API_KEY` with `""` for absent; the key check is the
JS `const key = apiKey || process.env.API_KEY; if (!key) throw ...`;
`candidate = response.candidates?.[0]`. -/
def editImage (apiKey env : String) (resp : GenResponse) : Except String String :=
  if (if apiKey ≠ "" then apiKey else env) = "" then
    Except.error "API Key is missing. Please provide a valid Gemini API Key in settings."
  else
    match (resp.candidates.getD []).head? with
    | none => Except.error "No candidates returned from Gemini API."
    | some cand => handleCandidate cand

/-! ## Controller edit-history state machine (src/App.tsx) -/

/-- Interface `ImageHistoryItem` (src/types.ts). -/
structure HistoryItem where
  id : String
  url : String
  prompt : String
  timestamp : ℕ
deriving DecidableEq

/-- Enum `AppState` (src/types.ts). -/
inductive AppPhase where
  | idle : AppPhase
  | analyzing : AppPhase
  | processing : AppPhase
  | complete : AppPhase
  | error : AppPhase
deriving DecidableEq

/-- The controller state that the history handlers in `App.tsx` read and
write.  `historyIndex` is an integer because its initial value is `-1`. -/
structure AppSt where
  currentImage : Option String
  history : List HistoryItem
  historyIndex : ℤ
  appState : AppPhase
deriving DecidableEq

/-- The controller's initial state (`useState` initialisers, src/App.tsx
lines 47-52). -/
def initialAppSt : AppSt := ⟨none, [], -1, AppPhase.idle⟩

/-- Handler `handleImageSelected`'s reader-onload state updates (src/App.tsx
lines 205-211): set the current image, reset history to the single original
item, index 0. -/
def handleImageSelected (url : String) (label : String) (ts : ℕ) (s : AppSt) : AppSt :=
  { s with currentImage := some url,
           history := [⟨"original", url, label, ts⟩],
           historyIndex := 0 }

/-- Handler `handleExternalEdit` (src/App.tsx lines 227-256).  The awaited
`editImage(img, txt)` outcome is passed in as `editResult`; `nid`/`ts` stand
for the random id and timestamp of the new item.  On success: set the current
image, truncate any redo branch with `slice(0, historyIndex + 1)`, append the
new item, bump the index, return "Image edited successfully".  On rejection:
enter the error phase and return "Failed to edit image" (the deferred
2-second reset to idle is not part of the returned state). -/
def handleExternalEdit (img txt nid : String) (ts : ℕ)
    (editResult : Except String String) (s : AppSt) : AppSt × String :=
  match editResult with
  | Except.ok enhancedImage =>
      let newItem : HistoryItem := ⟨nid, enhancedImage, txt, ts⟩
      ({ s with currentImage := some enhancedImage,
                history := s.history.take (s.historyIndex + 1).toNat ++ [newItem],
                historyIndex := s.historyIndex + 1,
                appState := AppPhase.idle },
       "Image edited successfully")
  | Except.error _ =>
      ({ s with appState := AppPhase.error }, "Failed to edit image")

/-- Handler `handleUndo` (src/App.tsx lines 267-274): effective only when
`historyIndex > 0`. -/
def handleUndo (s : AppSt) : AppSt :=
  if 0 < s.historyIndex then
    let newIndex := s.historyIndex - 1
    { s with historyIndex := newIndex,
             currentImage := some ((s.history.getD newIndex.toNat ⟨"", "", "", 0⟩).url) }
  else s

/-- Handler `handleRedo` (src/App.tsx lines 276-283): effective only when
`historyIndex < history.length - 1`. -/
def handleRedo (s : AppSt) : AppSt :=
  if s.historyIndex < (s.history.length : ℤ) - 1 then
    let newIndex := s.historyIndex + 1
    { s with historyIndex := newIndex,
             currentImage := some ((s.history.getD newIndex.toNat ⟨"", "", "", 0⟩).url) }
  else s

/-! ## Theorems -/

theorem wrapInt16_eq_self (n : ℤ) (h1 : -32768 ≤ n) (h2 : n ≤ 32767) :
    wrapInt16 n = n := by
  simp only [wrapInt16]
  split <;> omega

theorem neg_one_le_clamp (x : ℚ) : -1 ≤ clamp x := le_max_left _ _

theorem clamp_le_one (x : ℚ) : clamp x ≤ 1 :=
  max_le (by norm_num) (min_le_left _ _)

theorem clamp_eq_self {x : ℚ} (h1 : -1 ≤ x) (h2 : x ≤ 1) : clamp x = x := by
  unfold clamp
  rw [min_eq_right h2, max_eq_right h1]

/-- Per-sample form of `floatTo16BitPCM`: after clamping, the scaled sample is
truncated toward zero, and the `Int16Array` wrap never fires. -/
theorem floatTo16BitPCMSample_eq_trunc (x : ℚ) :
    floatTo16BitPCMSample x =
      (if clamp x < 0 then jsTrunc (clamp x * 32768) else jsTrunc (clamp x * 32767)) := by
  have hs1 : -1 ≤ clamp x := neg_one_le_clamp x
  have hs2 : clamp x ≤ 1 := clamp_le_one x
  simp only [floatTo16BitPCMSample, toInt16]
  by_cases hs : clamp x < 0
  · rw [if_pos hs, if_pos hs]
    have hq2 : clamp x * 32768 < 0 := by nlinarith
    have hj : jsTrunc (clamp x * 32768) = ⌈clamp x * 32768⌉ := by
      unfold jsTrunc
      rw [if_neg (not_le.mpr hq2)]
    have hcast : ((-32768 : ℤ) : ℚ) ≤ clamp x * 32768 := by push_cast; linarith
    have hb1 : (-32768 : ℤ) ≤ ⌈clamp x * 32768⌉ := by
      have := Int.ceil_mono hcast
      rwa [Int.ceil_intCast] at this
    have hb2 : ⌈clamp x * 32768⌉ ≤ 0 := by
      apply Int.ceil_le.mpr
      push_cast
      linarith
    rw [hj, wrapInt16_eq_self _ hb1 (by omega)]
  · rw [if_neg hs, if_neg hs]
    have hs0 : 0 ≤ clamp x := not_lt.mp hs
    have hq1 : 0 ≤ clamp x * 32767 := by positivity
    have hj : jsTrunc (clamp x * 32767) = ⌊clamp x * 32767⌋ := by
      unfold jsTrunc
      rw [if_pos hq1]
    have hb1 : 0 ≤ ⌊clamp x * 32767⌋ := Int.floor_nonneg.mpr hq1
    have hcast : clamp x * 32767 ≤ ((32767 : ℤ) : ℚ) := by push_cast; linarith
    have hb2 : ⌊clamp x * 32767⌋ ≤ 32767 := by
      have := Int.floor_mono hcast
      rwa [Int.floor_intCast] at this
    rw [hj, wrapInt16_eq_self _ (by omega) hb2]

/-- Range of the per-sample conversion. -/
theorem floatTo16BitPCMSample_range (x : ℚ) :
    -32768 ≤ floatTo16BitPCMSample x ∧ floatTo16BitPCMSample x ≤ 32767 := by
  have hs1 : -1 ≤ clamp x := neg_one_le_clamp x
  have hs2 : clamp x ≤ 1 := clamp_le_one x
  rw [floatTo16BitPCMSample_eq_trunc]
  by_cases hs : clamp x < 0
  · rw [if_pos hs]
    have hq2 : clamp x * 32768 < 0 := by nlinarith
    have hj : jsTrunc (clamp x * 32768) = ⌈clamp x * 32768⌉ := by
      unfold jsTrunc
      rw [if_neg (not_le.mpr hq2)]
    have hcast : ((-32768 : ℤ) : ℚ) ≤ clamp x * 32768 := by push_cast; linarith
    have hb1 : (-32768 : ℤ) ≤ ⌈clamp x * 32768⌉ := by
      have := Int.ceil_mono hcast
      rwa [Int.ceil_intCast] at this
    have hb2 : ⌈clamp x * 32768⌉ ≤ 0 := by
      apply Int.ceil_le.mpr
      push_cast
      linarith
    rw [hj]
    omega
  · rw [if_neg hs]
    have hq1 : 0 ≤ clamp x * 32767 := by
      have := not_lt.mp hs
      positivity
    have hj : jsTrunc (clamp x * 32767) = ⌊clamp x * 32767⌋ := by
      unfold jsTrunc
      rw [if_pos hq1]
    have hb1 : 0 ≤ ⌊clamp x * 32767⌋ := Int.floor_nonneg.mpr hq1
    have hcast : clamp x * 32767 ≤ ((32767 : ℤ) : ℚ) := by push_cast; linarith
    have hb2 : ⌊clamp x * 32767⌋ ≤ 32767 := by
      have := Int.floor_mono hcast
      rwa [Int.floor_intCast] at this
    rw [hj]
    omega

/-- Claim C1 (amended): `floatTo16BitPCM` clamps every sample to `[-1, 1]` and
then maps it to a signed 16-bit integer by truncation toward zero of
`x * 32767` when the clamped sample is nonnegative and of `x * 32768` when it
is negative, elementwise over the whole buffer; the produced values always lie
in `[-32768, 32767]`. -/
theorem floatTo16BitPCM_clamp_then_truncate (input : List ℚ) :
    floatTo16BitPCM input =
      input.map (fun x =>
        if clamp x < 0 then jsTrunc (clamp x * 32768) else jsTrunc (clamp x * 32767))
    ∧ ∀ x : ℚ, -32768 ≤ floatTo16BitPCMSample x ∧ floatTo16BitPCMSample x ≤ 32767 := by
  constructor
  · have hfun : floatTo16BitPCMSample = fun x =>
        if clamp x < 0 then jsTrunc (clamp x * 32768) else jsTrunc (clamp x * 32767) :=
      funext floatTo16BitPCMSample_eq_trunc
    rw [floatTo16BitPCM, hfun]
  · exact floatTo16BitPCMSample_range

/-- Claim C1 (counterexample to the claim as stated): at the in-range sample
`9/327670`, whose scaled value is `0.9`, the code truncates to `0` while the
claimed rounding gives `1`. -/
theorem floatTo16BitPCM_round_counterexample :
    floatTo16BitPCM [(9 : ℚ)/327670] = [0] ∧
    specRoundSample ((9 : ℚ)/327670) = 1 := by
  have hc : clamp ((9 : ℚ)/327670) = (9 : ℚ)/327670 :=
    clamp_eq_self (by norm_num) (by norm_num)
  have hmul : (9 : ℚ)/327670 * 32767 = 9/10 := by norm_num
  have hfl : ⌊(9 : ℚ)/10⌋ = 0 := by
    apply Int.floor_eq_iff.mpr
    constructor <;> norm_num
  have hsample : floatTo16BitPCMSample ((9 : ℚ)/327670) = 0 := by
    rw [floatTo16BitPCMSample_eq_trunc, hc, if_neg (by norm_num), hmul]
    unfold jsTrunc
    rw [if_pos (by norm_num), hfl]
  have hround : specRoundSample ((9 : ℚ)/327670) = 1 := by
    simp only [specRoundSample]
    rw [hc, if_pos (by norm_num), hmul, round_eq]
    apply Int.floor_eq_iff.mpr
    constructor <;> norm_num
  exact ⟨by simp [floatTo16BitPCM, hsample], hround⟩

/-- Per-sample round-trip error bound: strict two-quantisation-step bound. -/
theorem roundtripSample_error (x : ℚ) (h1 : -1 ≤ x) (h2 : x ≤ 1) :
    |pcm16ToFloat32Sample (floatTo16BitPCMSample x) - x| < 1/16384 := by
  have hc : clamp x = x := clamp_eq_self h1 h2
  rw [floatTo16BitPCMSample_eq_trunc, hc]
  by_cases hx : x < 0
  · rw [if_pos hx]
    have hq2 : x * 32768 < 0 := by nlinarith
    have hj : jsTrunc (x * 32768) = ⌈x * 32768⌉ := by
      unfold jsTrunc
      rw [if_neg (not_le.mpr hq2)]
    rw [hj]
    have hcl : (⌈x * 32768⌉ : ℚ) < x * 32768 + 1 := Int.ceil_lt_add_one _
    have hcg : x * 32768 ≤ (⌈x * 32768⌉ : ℚ) := Int.le_ceil _
    rw [pcm16ToFloat32Sample, abs_lt]
    constructor <;> linarith
  · rw [if_neg hx]
    have hx0 : 0 ≤ x := not_lt.mp hx
    have hq1 : 0 ≤ x * 32767 := by positivity
    have hj : jsTrunc (x * 32767) = ⌊x * 32767⌋ := by
      unfold jsTrunc
      rw [if_pos hq1]
    rw [hj]
    have hfl : (⌊x * 32767⌋ : ℚ) ≤ x * 32767 := Int.floor_le _
    have hfg : x * 32767 - 1 < (⌊x * 32767⌋ : ℚ) := Int.sub_one_lt_floor _
    rw [pcm16ToFloat32Sample, abs_lt]
    constructor <;> linarith

/-- Claim C4 (amended): for a buffer of samples in `[-1, 1]`, the
float → int16 → float round trip reproduces every sample within strictly less
than two quantisation steps (`1/16384`); the one-step bound `1/32768` claimed
by the spec fails (see the counterexample). -/
theorem pcm_roundtrip_error_bound (input : List ℚ)
    (h : ∀ x ∈ input, -1 ≤ x ∧ x ≤ 1) :
    List.Forall₂ (fun y x => |y - x| < 1/16384)
      (pcm16ToFloat32 (floatTo16BitPCM input)) input := by
  induction input with
  | nil => exact List.Forall₂.nil
  | cons x xs ih =>
      have hx := h x (List.mem_cons_self x xs)
      exact List.Forall₂.cons (roundtripSample_error x hx.1 hx.2)
        (ih fun y hy => h y (List.mem_cons_of_mem _ hy))

/-- Claim C4 witness: the round-trip bound applied to the concrete buffer
`[1/2]`. -/
theorem pcm_roundtrip_error_bound_witness :
    (∀ x ∈ [(1 : ℚ)/2], -1 ≤ x ∧ x ≤ 1) ∧
    List.Forall₂ (fun y x => |y - x| < 1/16384)
      (pcm16ToFloat32 (floatTo16BitPCM [(1 : ℚ)/2])) [(1 : ℚ)/2] := by
  have hmem : ∀ x ∈ [(1 : ℚ)/2], -1 ≤ x ∧ x ≤ 1 := by
    intro x hx
    rw [List.mem_singleton] at hx
    subst hx
    norm_num
  exact ⟨hmem, pcm_roundtrip_error_bound [(1 : ℚ)/2] hmem⟩

/-- Claim C4 (counterexample to the one-step bound as stated): the in-range
sample `65533/65534` round-trips to `16383/16384`, an error of about `1.5`
quantisation steps, strictly greater than `1/32768`. -/
theorem pcm_roundtrip_counterexample :
    (-1 ≤ (65533 : ℚ)/65534 ∧ (65533 : ℚ)/65534 ≤ 1) ∧
    pcm16ToFloat32 (floatTo16BitPCM [(65533 : ℚ)/65534]) = [(16383 : ℚ)/16384] ∧
    1/32768 < |(16383 : ℚ)/16384 - (65533 : ℚ)/65534| := by
  have hc : clamp ((65533 : ℚ)/65534) = (65533 : ℚ)/65534 :=
    clamp_eq_self (by norm_num) (by norm_num)
  have hmul : (65533 : ℚ)/65534 * 32767 = 65533/2 := by norm_num
  have hfl : ⌊(65533 : ℚ)/2⌋ = 32766 := by
    apply Int.floor_eq_iff.mpr
    constructor <;> norm_num
  have hsample : floatTo16BitPCMSample ((65533 : ℚ)/65534) = 32766 := by
    rw [floatTo16BitPCMSample_eq_trunc, hc, if_neg (by norm_num), hmul]
    unfold jsTrunc
    rw [if_pos (by norm_num), hfl]
  refine ⟨⟨by norm_num, by norm_num⟩, ?_, ?_⟩
  · simp only [floatTo16BitPCM, pcm16ToFloat32, List.map_cons, List.map_nil, hsample]
    norm_num [pcm16ToFloat32Sample]
  · have hneg : (16383 : ℚ)/16384 - 65533/65534 < 0 := by norm_num
    rw [abs_of_neg hneg]
    norm_num

theorem playAudio_start (c ct : ℚ) (n : ℕ) : (playAudio c ct n).1 = max ct c := by
  simp only [playAudio]
  rcases lt_or_ge c ct with h | h
  · rw [if_pos h, max_eq_left (le_of_lt h)]
  · rw [if_neg (not_lt.mpr h), max_eq_right h]

theorem chunkDuration_nonneg (n : ℕ) : 0 ≤ chunkDuration n := by
  unfold chunkDuration
  positivity

theorem playAudio_cursor_mono (c ct : ℚ) (n : ℕ) : c ≤ (playAudio c ct n).2 := by
  have hd := chunkDuration_nonneg n
  simp only [playAudio]
  split <;> linarith

theorem runPlay_cursor_mono (c : ℚ) (chunks : List (ℚ × ℕ)) :
    c ≤ (runPlay c chunks).2 := by
  induction chunks generalizing c with
  | nil => exact le_refl c
  | cons p rest ih =>
      obtain ⟨ct, n⟩ := p
      calc c ≤ (playAudio c ct n).2 := playAudio_cursor_mono c ct n
        _ ≤ (runPlay (playAudio c ct n).2 rest).2 := ih _

theorem runPlay_length (c : ℚ) (chunks : List (ℚ × ℕ)) :
    (runPlay c chunks).1.length = chunks.length := by
  induction chunks generalizing c with
  | nil => rfl
  | cons p rest ih =>
      obtain ⟨ct, n⟩ := p
      simp [runPlay, ih]

theorem runPlay_head (c ct : ℚ) (n : ℕ) (rest : List (ℚ × ℕ)) (h : ct ≤ c) :
    (runPlay c ((ct, n) :: rest)).1.getD 0 0 = c := by
  simp [runPlay, playAudio, if_neg (not_lt.mpr h)]

theorem playAudio_start_clock_behind (c ct : ℚ) (n : ℕ) (h : ct ≤ c) :
    (playAudio c ct n).1 = c := by
  simp [playAudio, if_neg (not_lt.mpr h)]

theorem runPlay_chain (c : ℚ) (chunks : List (ℚ × ℕ))
    (h : clockBehindB c chunks = true) :
    ∀ i, i + 1 < (runPlay c chunks).1.length →
      (runPlay c chunks).1.getD (i + 1) 0 =
        (runPlay c chunks).1.getD i 0 + chunkDuration (chunks.getD i (0, 0)).2 := by
  induction chunks generalizing c with
  | nil =>
      intro i hi
      simp [runPlay] at hi
  | cons p rest ih =>
      obtain ⟨ct, n⟩ := p
      rw [clockBehindB] at h
      by_cases hctc : ct ≤ c
      · rw [if_pos hctc] at h
        intro i hi
        rw [runPlay_length] at hi
        simp only [List.length_cons] at hi
        cases i with
        | zero =>
            cases rest with
            | nil => simp at hi
            | cons q rest2 =>
                obtain ⟨ct2, n2⟩ := q
                have hct2 : ct2 ≤ (playAudio c ct n).2 := by
                  rw [clockBehindB] at h
                  by_cases h2 : ct2 ≤ (playAudio c ct n).2
                  · exact h2
                  · rw [if_neg h2] at h
                    exact absurd h (by simp)
                simp only [runPlay, List.getD_cons_succ, List.getD_cons_zero]
                rw [playAudio_start_clock_behind _ _ _ hct2]
                rfl
        | succ j =>
            have hj : j + 1 < (runPlay (playAudio c ct n).2 rest).1.length := by
              rw [runPlay_length]
              omega
            have hrec := ih (playAudio c ct n).2 h j hj
            simpa [runPlay, List.getD_cons_succ] using hrec
      · rw [if_neg hctc] at h
        exact absurd h (by simp)

/-- Claim C2: each scheduled chunk starts at `max(device currentTime, cursor)`
and the cursor then advances by the chunk's duration; the cursor never
decreases; and while the device clock stays behind the cursor, every chunk
starts exactly at the end time of the previous one (no gaps, no overlaps). -/
theorem playAudio_scheduling (c : ℚ) (chunks : List (ℚ × ℕ))
    (hcb : clockBehindB c chunks = true) :
    (∀ c0 ct : ℚ, ∀ n : ℕ, (playAudio c0 ct n).1 = max ct c0 ∧
        (playAudio c0 ct n).2 = (playAudio c0 ct n).1 + chunkDuration n ∧
        c0 ≤ (playAudio c0 ct n).2)
    ∧ c ≤ (runPlay c chunks).2
    ∧ (∀ i, i + 1 < (runPlay c chunks).1.length →
        (runPlay c chunks).1.getD (i + 1) 0 =
          (runPlay c chunks).1.getD i 0 + chunkDuration (chunks.getD i (0, 0)).2) :=
  ⟨fun c0 ct n => ⟨playAudio_start c0 ct n, rfl, playAudio_cursor_mono c0 ct n⟩,
   runPlay_cursor_mono c chunks,
   runPlay_chain c chunks hcb⟩

/-- Claim C2 witness: the scheduling theorem applied to two concrete chunks
arriving with the device clock at 0. -/
theorem playAudio_scheduling_witness :
    clockBehindB 0 [((0 : ℚ), 240), ((0 : ℚ), 480)] = true ∧
    (0 : ℚ) ≤ (runPlay 0 [((0 : ℚ), 240), ((0 : ℚ), 480)]).2 := by
  have h : clockBehindB 0 [((0 : ℚ), 240), ((0 : ℚ), 480)] = true := by
    norm_num [clockBehindB, playAudio, chunkDuration]
  exact ⟨h, (playAudio_scheduling 0 _ h).2.1⟩

theorem runMessages_input_frags (st : TState) (frags : List String) :
    (runMessages st (frags.map inputFragMsg)).1 =
      ⟨st.currentInputText ++ concatAll frags, st.currentOutputText⟩
    ∧ (runMessages st (frags.map inputFragMsg)).2 =
        userFragEvents st.currentInputText frags := by
  induction frags generalizing st with
  | nil =>
      refine ⟨?_, rfl⟩
      show st = (⟨st.currentInputText ++ "", st.currentOutputText⟩ : TState)
      rw [String.append_empty]
  | cons t rest ih =>
      simp only [List.map_cons, runMessages, handleServerContent, inputFragMsg,
        if_neg (Bool.false_ne_true)]
      have ihx := ih ⟨st.currentInputText ++ t, st.currentOutputText⟩
      simp only [userFragEvents, concatAll]
      constructor
      · rw [show (runMessages ⟨st.currentInputText ++ t, st.currentOutputText⟩
              (rest.map inputFragMsg)).1 =
            ⟨(st.currentInputText ++ t) ++ concatAll rest, st.currentOutputText⟩ from ihx.1]
        rw [String.append_assoc]
      · rw [show (runMessages ⟨st.currentInputText ++ t, st.currentOutputText⟩
              (rest.map inputFragMsg)).2 =
            userFragEvents (st.currentInputText ++ t) rest from ihx.2]
        rfl

theorem runMessages_frags (st : TState) (frags : List String) :
    (runMessages st (frags.map outputFragMsg)).1 =
      ⟨st.currentInputText, st.currentOutputText ++ concatAll frags⟩
    ∧ (runMessages st (frags.map outputFragMsg)).2 =
        modelFragEvents st.currentOutputText frags := by
  induction frags generalizing st with
  | nil =>
      refine ⟨?_, rfl⟩
      show st = (⟨st.currentInputText, st.currentOutputText ++ ""⟩ : TState)
      rw [String.append_empty]
  | cons t rest ih =>
      simp only [List.map_cons, runMessages, handleServerContent, outputFragMsg,
        if_neg (Bool.false_ne_true), List.nil_append]
      have ihx := ih ⟨st.currentInputText, st.currentOutputText ++ t⟩
      simp only [modelFragEvents, concatAll]
      constructor
      · rw [show (runMessages ⟨st.currentInputText, st.currentOutputText ++ t⟩
              (rest.map outputFragMsg)).1 =
            ⟨st.currentInputText, (st.currentOutputText ++ t) ++ concatAll rest⟩ from ihx.1]
        rw [String.append_assoc]
      · rw [show (runMessages ⟨st.currentInputText, st.currentOutputText ++ t⟩
              (rest.map outputFragMsg)).2 =
            modelFragEvents (st.currentOutputText ++ t) rest from ihx.2]
        rfl

/-- Claim C5: non-final fragments for one source are concatenated in arrival
order into that source's accumulator, each fragment emitting a non-final
`onTranscription` with the accumulated text — stated for both sources: user
fragments (`inputTranscription`, lines 102-105) append to `currentInputText`
and emit non-final user events, model fragments (`outputTranscription`,
lines 106-109) append to `currentOutputText` and emit non-final model events,
each run leaving the other source's accumulator untouched; a turn-complete
signal emits the accumulated model text as final and then clears both
accumulators.  The concrete fragment run "Hello", ", ", "world" accumulates
to "Hello, world" for either source. -/
theorem transcript_accumulation (st : TState) (frags : List String) :
    (runMessages st (frags.map inputFragMsg)).1 =
      ⟨st.currentInputText ++ concatAll frags, st.currentOutputText⟩
    ∧ (runMessages st (frags.map inputFragMsg)).2 =
        userFragEvents st.currentInputText frags
    ∧ (runMessages st (frags.map outputFragMsg)).1 =
      ⟨st.currentInputText, st.currentOutputText ++ concatAll frags⟩
    ∧ (runMessages st (frags.map outputFragMsg)).2 =
        modelFragEvents st.currentOutputText frags
    ∧ (runMessages (runMessages st (frags.map outputFragMsg)).1 [turnCompleteMsg]).2 =
        [⟨st.currentOutputText ++ concatAll frags, TSource.model, true⟩]
    ∧ (runMessages (runMessages st (frags.map outputFragMsg)).1 [turnCompleteMsg]).1 =
        ⟨"", ""⟩
    ∧ (runMessages ⟨"", ""⟩ (["Hello", ", ", "world"].map inputFragMsg)).1.currentInputText
        = "Hello, world"
    ∧ (runMessages ⟨"", ""⟩ (["Hello", ", ", "world"].map outputFragMsg)).1.currentOutputText
        = "Hello, world" := by
  obtain ⟨g1, g2⟩ := runMessages_input_frags st frags
  obtain ⟨h1, h2⟩ := runMessages_frags st frags
  refine ⟨g1, g2, h1, h2, ?_, ?_, ?_, ?_⟩
  · rw [h1]
    rfl
  · rw [h1]
    rfl
  · rw [show (runMessages ⟨"", ""⟩ (["Hello", ", ", "world"].map inputFragMsg)).1 =
        ⟨"" ++ concatAll ["Hello", ", ", "world"], ""⟩ from (runMessages_input_frags _ _).1]
    decide
  · rw [show (runMessages ⟨"", ""⟩ (["Hello", ", ", "world"].map outputFragMsg)).1 =
        ⟨"", "" ++ concatAll ["Hello", ", ", "world"]⟩ from (runMessages_frags _ _).1]
    decide

theorem processToolCalls_ok (h : FunctionCall → Except String JSVal)
    (fcs : List FunctionCall) (hok : ∀ fc ∈ fcs, ∃ v, h fc = Except.ok v) :
    processToolCalls (some h) fcs =
      Except.ok (fcs.map fun fc =>
        ⟨fc.id, fc.name, resultOrSuccess ((h fc).toOption.getD JSVal.undef)⟩) := by
  induction fcs with
  | nil => rfl
  | cons fc rest ih =>
      obtain ⟨v, hv⟩ := hok fc (List.mem_cons_self fc rest)
      have hrest := ih fun fc' hfc' => hok fc' (List.mem_cons_of_mem _ hfc')
      simp only [processToolCalls, hv, hrest, List.map_cons, Except.toOption,
        Option.getD_some]

/-- Claim C3 (amended): when a tool handler is configured and every handler
invocation of the batch resolves (no exception), a batch of K invocations
yields exactly K results, each correlated to its invocation's id and name,
sent back in a single tool-response message.  When a handler invocation
throws, however, the loop aborts with that exception: no response message is
sent and the exception escapes the session's message handler (the code has no
try/catch around the handler; see the counterexample). -/
theorem toolCall_batch_complete (h : FunctionCall → Except String JSVal)
    (fcs : List FunctionCall) (hok : ∀ fc ∈ fcs, ∃ v, h fc = Except.ok v) :
    ∃ msg : ToolResponseMessage,
      handleToolCall (some h) fcs = Except.ok msg ∧
      msg.functionResponses.length = fcs.length ∧
      ∀ i, i < fcs.length →
        (msg.functionResponses.getD i ⟨"", "", JSVal.undef⟩).id =
            (fcs.getD i ⟨"", ""⟩).id ∧
        (msg.functionResponses.getD i ⟨"", "", JSVal.undef⟩).name =
            (fcs.getD i ⟨"", ""⟩).name := by
  refine ⟨⟨fcs.map fun fc =>
    ⟨fc.id, fc.name, resultOrSuccess ((h fc).toOption.getD JSVal.undef)⟩⟩, ?_, ?_, ?_⟩
  · simp only [handleToolCall, processToolCalls_ok h fcs hok]
  · simp
  · intro i hi
    constructor
    · rw [List.getD_eq_getElem?_getD, List.getElem?_map,
        List.getElem?_eq_getElem hi]
      simp [List.getD_eq_getElem?_getD, List.getElem?_eq_getElem hi]
    · rw [List.getD_eq_getElem?_getD, List.getElem?_map,
        List.getElem?_eq_getElem hi]
      simp [List.getD_eq_getElem?_getD, List.getElem?_eq_getElem hi]

/-- Claim C3 witness: the batch property applied to a concrete two-call batch
with a handler that always resolves. -/
theorem toolCall_batch_complete_witness :
    (∀ fc ∈ [(⟨"id-1", "edit_image"⟩ : FunctionCall), ⟨"id-2", "edit_image"⟩],
      ∃ v, (fun _ => Except.ok (JSVal.str "done") :
              FunctionCall → Except String JSVal) fc = Except.ok v) ∧
    ∃ msg : ToolResponseMessage,
      handleToolCall (some (fun _ => Except.ok (JSVal.str "done")))
        [⟨"id-1", "edit_image"⟩, ⟨"id-2", "edit_image"⟩] = Except.ok msg ∧
      msg.functionResponses.length =
        [(⟨"id-1", "edit_image"⟩ : FunctionCall), ⟨"id-2", "edit_image"⟩].length ∧
      ∀ i, i < [(⟨"id-1", "edit_image"⟩ : FunctionCall), ⟨"id-2", "edit_image"⟩].length →
        (msg.functionResponses.getD i ⟨"", "", JSVal.undef⟩).id =
            ([(⟨"id-1", "edit_image"⟩ : FunctionCall), ⟨"id-2", "edit_image"⟩].getD i
              ⟨"", ""⟩).id ∧
        (msg.functionResponses.getD i ⟨"", "", JSVal.undef⟩).name =
            ([(⟨"id-1", "edit_image"⟩ : FunctionCall), ⟨"id-2", "edit_image"⟩].getD i
              ⟨"", ""⟩).name := by
  have hok : ∀ fc ∈ [(⟨"id-1", "edit_image"⟩ : FunctionCall), ⟨"id-2", "edit_image"⟩],
      ∃ v, (fun _ => Except.ok (JSVal.str "done") :
              FunctionCall → Except String JSVal) fc = Except.ok v :=
    fun fc _ => ⟨JSVal.str "done", rfl⟩
  exact ⟨hok, toolCall_batch_complete _ _ hok⟩

/-- Claim C3 (counterexample to the claim as stated): a batch of one
invocation whose handler throws produces no tool result at all — the loop
aborts with the exception and no response message is sent, rather than a
failure result correlated to the invocation's id. -/
theorem toolCall_throwing_counterexample :
    handleToolCall (some (fun _ => Except.error "handler exception"))
        [⟨"call-1", "edit_image"⟩] = Except.error "handler exception" ∧
    (handleToolCall (some (fun _ => Except.error "handler exception"))
        [⟨"call-1", "edit_image"⟩]).toOption = none :=
  ⟨rfl, rfl⟩

/-- Claim C8 (amended): on a batch whose handler invocations all resolve, the
results are submitted together in one outbound message of the shape
`{ functionResponses: [{ id, name, response: { result } }, …] }`, where each
invocation's result value is the handler's return value when that value is
truthy and the default `"success"` otherwise — the default applies not only
when the handler resolves with no value (`undefined`) but to every falsy
result (`null`, `""`, `0`, `false`), because the code computes
`result || "success"`. -/
theorem toolCall_response_message (h : FunctionCall → Except String JSVal)
    (fcs : List FunctionCall) (hok : ∀ fc ∈ fcs, ∃ v, h fc = Except.ok v) :
    handleToolCall (some h) fcs =
      Except.ok ⟨fcs.map fun fc =>
        ⟨fc.id, fc.name, resultOrSuccess ((h fc).toOption.getD JSVal.undef)⟩⟩
    ∧ resultOrSuccess JSVal.undef = JSVal.str "success"
    ∧ resultOrSuccess JSVal.null = JSVal.str "success"
    ∧ resultOrSuccess (JSVal.str "") = JSVal.str "success"
    ∧ resultOrSuccess (JSVal.bool false) = JSVal.str "success"
    ∧ resultOrSuccess (JSVal.num 0) = JSVal.str "success"
    ∧ (∀ s : String, s ≠ "" → resultOrSuccess (JSVal.str s) = JSVal.str s) := by
  refine ⟨?_, rfl, rfl, rfl, rfl, ?_, ?_⟩
  · simp only [handleToolCall, processToolCalls_ok h fcs hok]
  · simp [resultOrSuccess, truthy]
  · intro s hs
    simp [resultOrSuccess, truthy, hs]

/-- Claim C8 witness: the response-message theorem applied to a concrete
batch, including the nonempty-string conjunct at "done". -/
theorem toolCall_response_message_witness :
    (∀ fc ∈ [(⟨"id-9", "edit_image"⟩ : FunctionCall)],
      ∃ v, (fun _ => Except.ok JSVal.undef :
              FunctionCall → Except String JSVal) fc = Except.ok v) ∧
    handleToolCall (some (fun _ => Except.ok JSVal.undef)) [⟨"id-9", "edit_image"⟩] =
      Except.ok ⟨[(⟨"id-9", "edit_image"⟩ : FunctionCall)].map fun fc =>
        ⟨fc.id, fc.name, resultOrSuccess
          (((fun _ => Except.ok JSVal.undef :
              FunctionCall → Except String JSVal) fc).toOption.getD JSVal.undef)⟩⟩ ∧
    resultOrSuccess (JSVal.str "done") = JSVal.str "done" := by
  have hok : ∀ fc ∈ [(⟨"id-9", "edit_image"⟩ : FunctionCall)],
      ∃ v, (fun _ => Except.ok JSVal.undef :
              FunctionCall → Except String JSVal) fc = Except.ok v :=
    fun fc _ => ⟨JSVal.undef, rfl⟩
  refine ⟨hok, (toolCall_response_message _ _ hok).1, ?_⟩
  exact (toolCall_response_message (fun _ => Except.ok JSVal.undef) [] (fun fc h => ⟨JSVal.undef, rfl⟩)).2.2.2.2.2.2 "done" (by decide)

/-- Claim C8 (counterexample to the claim as stated): a handler that resolves
with the empty string — a value, just a falsy one — still yields the default
result `"success"`, not the handler's return value. -/
theorem toolCall_empty_string_counterexample :
    handleToolCall (some (fun _ => Except.ok (JSVal.str "")))
        [⟨"call-1", "edit_image"⟩] =
      Except.ok ⟨[⟨"call-1", "edit_image", JSVal.str "success"⟩]⟩ := by
  rfl

/-- Claim C6 (counterexample to the claim as stated): `disconnect` is not
idempotent.  Starting from a connected client, the first call succeeds and
tears everything down, but — because none of the resource references are
nulled — the second call closes the already-closed audio contexts again,
which rejects with `InvalidStateError`, so the second `disconnect()` throws. -/
theorem disconnect_twice_counterexample :
    disconnect ⟨some [⟨false⟩], some ⟨true, true⟩, some ⟨true⟩, some ⟨false⟩,
        some ⟨false⟩, true, "hello", "selam"⟩ =
      Except.ok ⟨some [⟨true⟩], some ⟨false, false⟩, some ⟨false⟩, some ⟨true⟩,
        some ⟨true⟩, false, "", ""⟩ ∧
    disconnect ⟨some [⟨true⟩], some ⟨false, false⟩, some ⟨false⟩, some ⟨true⟩,
        some ⟨true⟩, false, "", ""⟩ = Except.error "InvalidStateError" :=
  ⟨rfl, rfl⟩

/-- Claim C6 (amended): `disconnect` does not throw when called before
`connect` (all resource references still null: a no-op), nor when called
mid-connect before `connect` resolves — `connect` allocates the two audio
contexts and the session reference synchronously (src/unnamed/part_001
lines 40-41, 60) while the capture pipeline starts only from the `onopen`
callback, and `disconnect` on that state closes the freshly open contexts and
clears the session without error — nor on its first call on a fully connected
client, where it stops all tracks, disconnects and nulls the processing
node's callback, disconnects the capture source, closes both device contexts,
drops the connection reference and clears both transcript accumulators.  It
is not idempotent after a successful teardown (see the counterexample): the
contexts are left closed but referenced, so a repeated call rejects. -/
theorem disconnect_behaviour (tracks : List Track) (p : Processor)
    (src : SourceNode) (sact : Bool) (itxt otxt : String) :
    disconnect freshClient = Except.ok freshClient ∧
    disconnect (⟨none, none, none, some ⟨false⟩, some ⟨false⟩,
        sact, itxt, otxt⟩ : ClientState) =
      Except.ok ⟨none, none, none, some ⟨true⟩, some ⟨true⟩, false, "", ""⟩ ∧
    disconnect (⟨some tracks, some p, some src, some ⟨false⟩, some ⟨false⟩,
        sact, itxt, otxt⟩ : ClientState) =
      Except.ok ⟨some (tracks.map fun _ => ⟨true⟩), some ⟨false, false⟩,
        some ⟨false⟩, some ⟨true⟩, some ⟨true⟩, false, "", ""⟩ ∧
    disconnect (⟨some (tracks.map fun _ => ⟨true⟩), some ⟨false, false⟩,
        some ⟨false⟩, some ⟨true⟩, some ⟨true⟩, false, "", ""⟩ : ClientState) =
      Except.error "InvalidStateError" :=
  ⟨rfl, rfl, rfl, rfl⟩

theorem key_empty_iff (apiKey env : String) :
    ((if apiKey ≠ "" then apiKey else env) = "") ↔ (apiKey = "" ∧ env = "") := by
  by_cases h : apiKey = ""
  · simp [h]
  · simp [h]

theorem handleParts_error_iff (parts : List RespPart) :
    (∃ e, handleParts parts = Except.error e) ↔
      (parts = [] ∨ ∀ p ∈ parts, p.inlineData = none) := by
  unfold handleParts
  by_cases hpe : parts = []
  · simp [hpe]
  · rw [if_neg hpe]
    rcases hf : parts.find? (fun p => p.inlineData.isSome) with _ | p
    · simp only [hf]
      constructor
      · intro _
        right
        intro q hq
        have := List.find?_eq_none.mp hf q hq
        simpa using this
      · intro _
        exact ⟨"No image data found in response.", rfl⟩
    · simp only [hf]
      constructor
      · intro ⟨e, he⟩
        exact absurd he (by simp)
      · intro hcase
        rcases hcase with hpe' | hall
        · exact absurd hpe' hpe
        · have hmem := List.mem_of_find?_eq_some hf
          have hsome := List.find?_some hf
          rw [hall p hmem] at hsome
          simp at hsome

theorem handleParts_ok (parts : List RespPart) (s : String)
    (h : handleParts parts = Except.ok s) :
    ∃ d, s = "data:image/png;base64," ++ d := by
  unfold handleParts at h
  by_cases hpe : parts = []
  · rw [if_pos hpe] at h
    exact absurd h (by simp)
  · rw [if_neg hpe] at h
    rcases hf : parts.find? (fun p => p.inlineData.isSome) with _ | p
    · rw [hf] at h
      exact absurd h (by simp)
    · rw [hf] at h
      refine ⟨p.inlineData.getD "", ?_⟩
      have := Except.ok.inj h
      exact this.symm

theorem handleCandidate_error_iff (cand : Candidate) :
    (∃ e, handleCandidate cand = Except.error e) ↔
      ((candParts cand).getD [] = [] ∨
        ∀ p ∈ (candParts cand).getD [], p.inlineData = none) := by
  unfold handleCandidate
  by_cases habn : finishReasonAbnormal cand ∧ (candParts cand).getD [] = []
  · rw [if_pos habn]
    constructor
    · intro _
      left
      exact habn.2
    · intro _
      exact ⟨_, rfl⟩
  · rw [if_neg habn]
    rcases hp : candParts cand with _ | parts
    · constructor
      · intro _
        left
        rfl
      · intro _
        exact ⟨"No content generated from Gemini (empty parts).", rfl⟩
    · show (∃ e, handleParts parts = Except.error e) ↔
        (parts = [] ∨ ∀ p ∈ parts, p.inlineData = none)
      exact handleParts_error_iff parts

theorem handleCandidate_ok (cand : Candidate) (s : String)
    (h : handleCandidate cand = Except.ok s) :
    ∃ d, s = "data:image/png;base64," ++ d := by
  unfold handleCandidate at h
  by_cases habn : finishReasonAbnormal cand ∧ (candParts cand).getD [] = []
  · rw [if_pos habn] at h
    exact absurd h (by simp)
  · rw [if_neg habn] at h
    rcases hp : candParts cand with _ | parts
    · rw [hp] at h
      exact absurd h (by simp)
    · rw [hp] at h
      exact handleParts_ok parts s h

/-- Claim C7: `editImage` rejects with a descriptive error exactly when the
credential is missing, no response candidate is returned, the finish reason
is non-normal with no accompanying content, the content has no parts, or no
part carries image data; in every other case it resolves with a data URL of
the form `data:image/png;base64,<data>`. -/
theorem editImage_error_conditions (apiKey env : String) (resp : GenResponse) :
    ((∃ e, editImage apiKey env resp = Except.error e) ↔
      ((apiKey = "" ∧ env = "")
        ∨ (resp.candidates.getD []).head? = none
        ∨ (∃ cand, (resp.candidates.getD []).head? = some cand ∧
            finishReasonAbnormal cand = true ∧ (candParts cand).getD [] = [])
        ∨ (∃ cand, (resp.candidates.getD []).head? = some cand ∧
            (candParts cand).getD [] = [])
        ∨ (∃ cand, (resp.candidates.getD []).head? = some cand ∧
            ∀ p ∈ (candParts cand).getD [], p.inlineData = none)))
    ∧ (∀ s, editImage apiKey env resp = Except.ok s →
        ∃ d, s = "data:image/png;base64," ++ d) := by
  unfold editImage
  by_cases hkey : (if apiKey ≠ "" then apiKey else env) = ""
  · rw [if_pos hkey]
    constructor
    · constructor
      · intro _
        left
        exact (key_empty_iff apiKey env).mp hkey
      · intro _
        exact ⟨_, rfl⟩
    · intro s hs
      exact absurd hs (by simp)
  · rw [if_neg hkey]
    have hkey' : ¬ (apiKey = "" ∧ env = "") := fun hc =>
      hkey ((key_empty_iff apiKey env).mpr hc)
    rcases hh : (resp.candidates.getD []).head? with _ | cand
    · constructor
      · constructor
        · intro _
          right
          left
          rfl
        · intro _
          exact ⟨_, rfl⟩
      · intro s hs
        exact absurd hs (by simp)
    · constructor
      · rw [handleCandidate_error_iff cand]
        constructor
        · intro hcase
          rcases hcase with hempty | hall
          · right; right; right; left
            exact ⟨cand, rfl, hempty⟩
          · right; right; right; right
            exact ⟨cand, rfl, hall⟩
        · intro hcase
          rcases hcase with h1 | h2 | h3 | h4 | h5
          · exact absurd h1 hkey'
          · exact absurd h2 (by simp)
          · obtain ⟨cand', hc', _, hempty⟩ := h3
            rw [← Option.some.inj hc'] at hempty
            left
            exact hempty
          · obtain ⟨cand', hc', hempty⟩ := h4
            rw [← Option.some.inj hc'] at hempty
            left
            exact hempty
          · obtain ⟨cand', hc', hall⟩ := h5
            rw [← Option.some.inj hc'] at hall
            right
            exact hall
      · intro s hs
        exact handleCandidate_ok cand s hs

/-- Claim C7 witness: the success direction applied to a concrete response
with one normal candidate carrying one image part. -/
theorem editImage_error_conditions_witness :
    editImage "k" ""
        ⟨some [⟨none, some ⟨some [⟨some "AAAA", none⟩]⟩⟩]⟩ =
      Except.ok "data:image/png;base64,AAAA" ∧
    ∃ d, "data:image/png;base64,AAAA" = "data:image/png;base64," ++ d :=
  ⟨rfl,
   (editImage_error_conditions "k" ""
      ⟨some [⟨none, some ⟨some [⟨some "AAAA", none⟩]⟩⟩]⟩).2
     "data:image/png;base64,AAAA" rfl⟩

/-- Claim C9: the controller's edit-history machine.  After uploading image A
the history is `[A]` with index 0; a successful edit to image B truncates any
redo branch and appends, giving `[A, B]` with index 1 and current image B;
undo reverts to A with index 0; redo returns to B with index 1; a fresh edit
from the undone state truncates the redo branch (`[A, C]`, index 1).  Undo is
a no-op unless the index is positive, and redo is a no-op unless the index is
below history length minus one. -/
theorem edit_history_machine (urlA urlB urlC lbl txt txt2 nid nid2 : String)
    (t0 t1 t2 : ℕ) :
    (handleImageSelected urlA lbl t0 initialAppSt).history =
        [⟨"original", urlA, lbl, t0⟩]
    ∧ (handleImageSelected urlA lbl t0 initialAppSt).historyIndex = 0
    ∧ (handleExternalEdit urlA txt nid t1 (Except.ok urlB)
        (handleImageSelected urlA lbl t0 initialAppSt)).1.history =
        [⟨"original", urlA, lbl, t0⟩, ⟨nid, urlB, txt, t1⟩]
    ∧ (handleExternalEdit urlA txt nid t1 (Except.ok urlB)
        (handleImageSelected urlA lbl t0 initialAppSt)).1.historyIndex = 1
    ∧ (handleExternalEdit urlA txt nid t1 (Except.ok urlB)
        (handleImageSelected urlA lbl t0 initialAppSt)).1.currentImage = some urlB
    ∧ (handleUndo (handleExternalEdit urlA txt nid t1 (Except.ok urlB)
        (handleImageSelected urlA lbl t0 initialAppSt)).1).currentImage = some urlA
    ∧ (handleUndo (handleExternalEdit urlA txt nid t1 (Except.ok urlB)
        (handleImageSelected urlA lbl t0 initialAppSt)).1).historyIndex = 0
    ∧ (handleRedo (handleUndo (handleExternalEdit urlA txt nid t1 (Except.ok urlB)
        (handleImageSelected urlA lbl t0 initialAppSt)).1)).currentImage = some urlB
    ∧ (handleRedo (handleUndo (handleExternalEdit urlA txt nid t1 (Except.ok urlB)
        (handleImageSelected urlA lbl t0 initialAppSt)).1)).historyIndex = 1
    ∧ (handleExternalEdit urlA txt2 nid2 t2 (Except.ok urlC)
        (handleUndo (handleExternalEdit urlA txt nid t1 (Except.ok urlB)
          (handleImageSelected urlA lbl t0 initialAppSt)).1)).1.history =
        [⟨"original", urlA, lbl, t0⟩, ⟨nid2, urlC, txt2, t2⟩]
    ∧ (handleExternalEdit urlA txt2 nid2 t2 (Except.ok urlC)
        (handleUndo (handleExternalEdit urlA txt nid t1 (Except.ok urlB)
          (handleImageSelected urlA lbl t0 initialAppSt)).1)).1.historyIndex = 1
    ∧ (∀ s : AppSt, s.historyIndex ≤ 0 → handleUndo s = s)
    ∧ (∀ s : AppSt, (s.history.length : ℤ) - 1 ≤ s.historyIndex → handleRedo s = s) := by
  refine ⟨rfl, rfl, rfl, rfl, rfl, rfl, rfl, rfl, rfl, rfl, rfl, ?_, ?_⟩
  · intro s h
    unfold handleUndo
    rw [if_neg (by omega)]
  · intro s h
    unfold handleRedo
    rw [if_neg (by omega)]

/-- Claim C9 witness: the no-op guards applied at the initial state
(index −1, empty history). -/
theorem edit_history_machine_witness :
    (initialAppSt.historyIndex ≤ 0 ∧ handleUndo initialAppSt = initialAppSt) ∧
    ((initialAppSt.history.length : ℤ) - 1 ≤ initialAppSt.historyIndex ∧
      handleRedo initialAppSt = initialAppSt) :=
  ⟨⟨by decide,
    (edit_history_machine "a" "b" "c" "l" "t" "u" "n" "m" 0 1 2).2.2.2.2.2.2.2.2.2.2.2.1
      initialAppSt (by decide)⟩,
   ⟨by decide,
    (edit_history_machine "a" "b" "c" "l" "t" "u" "n" "m" 0 1 2).2.2.2.2.2.2.2.2.2.2.2.2
      initialAppSt (by decide)⟩⟩

/-- Claim C10: when the underlying `editImage` call rejects,
`handleExternalEdit` leaves the history, the history index and the current
image unchanged, and resolves with the string "Failed to edit image" instead
of throwing. -/
theorem edit_failure_atomic (s : AppSt) (img txt nid errMsg : String) (ts : ℕ) :
    (handleExternalEdit img txt nid ts (Except.error errMsg) s).2 =
        "Failed to edit image"
    ∧ (handleExternalEdit img txt nid ts (Except.error errMsg) s).1.history =
        s.history
    ∧ (handleExternalEdit img txt nid ts (Except.error errMsg) s).1.historyIndex =
        s.historyIndex
    ∧ (handleExternalEdit img txt nid ts (Except.error errMsg) s).1.currentImage =
        s.currentImage :=
  ⟨rfl, rfl, rfl, rfl⟩

end PhotoVoice
